import Mathlib

/-!
Verification of `cotede/anomaly_detection.py` (CoTeDe anomaly-detection
calibration) against its specification.

The Python module is shallowly embedded below:

* machine floats are modelled as exact rationals (`ℚ`);
* masked arrays (`numpy.ma`) are modelled as `List (Option _)`, `none`
  standing for a masked entry;
* the external SciPy survival function `exponweib.sf` and the natural
  logarithm are external numeric collaborators; they are passed in as
  explicit function parameters, with the properties the code relies on
  (a survival probability lies in `[0, 1]`, `log` is nonpositive on
  `(0, 1]`) stated as hypotheses where a theorem needs them;
* `np.random.permutation` is modelled by quantifying over an injectable
  permuted copy of the index list, matching the spec's requirement that
  the random source be injectable;
* Python exceptions are modelled with `Except String`; a Python `None`
  result (as opposed to an exception) is the `none` of an `Option` in
  the success channel.
-/

/-! ## Partitioner: `split_data_groups` (anomaly_detection.py lines 222-262) -/

/-- Default good flag codes (source: `good_flags=[1,2]`). -/
def goodFlagsDefault : List ℤ := [1, 2]

/-- Default bad flag codes (source: `bad_flags=[3,4]`). -/
def badFlagsDefault : List ℤ := [3, 4]

/-- Boolean label of one flag entry, as built by the two assignment loops
`ind[flag == f] = True` (good) then `ind[flag == f] = False` (bad) on a
`ma.masked_all` array: a bad code wins over a good one because it is
written later, any other or missing code stays masked. -/
def labelOfFlag (gf bf : List ℤ) (x : Option ℤ) : Option Bool :=
  match x with
  | none => none
  | some v => if v ∈ bf then some false else if v ∈ gf then some true else none

/-- Row indices, in ascending order, whose flag carries a good label:
`ind_good = np.nonzero((ind == True) & ind_valid)[0]`. -/
def goodIndices (flag : List (Option ℤ)) : List ℕ :=
  (List.range flag.length).filter
    (fun i => decide (labelOfFlag goodFlagsDefault badFlagsDefault (flag.getD i none) = some true))

/-- Row indices, in ascending order, whose flag carries a bad label:
`ind_bad = np.nonzero((ind == False) & ind_valid)[0]`. -/
def badIndices (flag : List (Option ℤ)) : List ℕ :=
  (List.range flag.length).filter
    (fun i => decide (labelOfFlag goodFlagsDefault badFlagsDefault (flag.getD i none) = some false))

/-- The three boolean index masks returned by `split_data_groups`. -/
structure DataGroups where
  fit : List Bool
  test : List Bool
  err : List Bool
deriving Repr, DecidableEq

/-- Good-row test quota `N_test = int(round(N_good*.2))`.  Python 2 `round`
is half-away-from-zero; a tie is impossible for `N_good/5`, so this is
`⌊N_good/5 + 1/2⌋ = (2*N_good + 5) / 10` in natural division. -/
def nTestGood (flag : List (Option ℤ)) : ℕ := (2 * (goodIndices flag).length + 5) / 10

/-- Bad-row test quota `N_test = int(round(N_bad*.5))`; Python 2 rounds the
half-integer case away from zero, so this is `(N_bad + 1) / 2`. -/
def nTestBad (flag : List (Option ℤ)) : ℕ := ((badIndices flag).length + 1) / 2

/-- `ind_good[perm[:N_test]]` — the good rows sent to `test`. -/
def testGoodSeg (flag : List (Option ℤ)) (gp : List ℕ) : List ℕ := gp.take (nTestGood flag)

/-- `ind_good[perm[N_test:2*N_test]]` — the good rows sent to `err`. -/
def errGoodSeg (flag : List (Option ℤ)) (gp : List ℕ) : List ℕ :=
  (gp.drop (nTestGood flag)).take (nTestGood flag)

/-- `ind_good[perm[2*N_test:]]` — the good rows sent to `fit`. -/
def fitGoodSeg (flag : List (Option ℤ)) (gp : List ℕ) : List ℕ := gp.drop (2 * nTestGood flag)

/-- `ind_bad[perm[:N_test]]` — the bad rows sent to `test`. -/
def testBadSeg (flag : List (Option ℤ)) (bp : List ℕ) : List ℕ := bp.take (nTestBad flag)

/-- `ind_bad[perm[N_test:]]` — the bad rows sent to `err`. -/
def errBadSeg (flag : List (Option ℤ)) (bp : List ℕ) : List ℕ := bp.drop (nTestBad flag)

/-- Embedding of `split_data_groups(flag)`.  `gp` (resp. `bp`) is the
randomly permuted copy of the good (resp. bad) index list, i.e. the source's
`ind_good[perm]` for `perm = np.random.permutation(N_good)`; theorems
quantify over every `gp` that is a permutation of `goodIndices flag`,
matching the injectable random source required by the spec.  The returned
boolean masks are built exactly as the source's `ind_base.copy()` plus
index assignments. -/
def split_data_groups (flag : List (Option ℤ)) (gp bp : List ℕ) : DataGroups :=
  { fit := (List.range flag.length).map (fun i => decide (i ∈ fitGoodSeg flag gp))
    test := (List.range flag.length).map
      (fun i => decide (i ∈ testGoodSeg flag gp ∨ i ∈ testBadSeg flag bp))
    err := (List.range flag.length).map
      (fun i => decide (i ∈ errGoodSeg flag gp ∨ i ∈ errBadSeg flag bp)) }

/-! Basic lemmas about the partitioner. -/

lemma mem_goodIndices {flag : List (Option ℤ)} {i : ℕ} :
    i ∈ goodIndices flag ↔
      i < flag.length ∧
        labelOfFlag goodFlagsDefault badFlagsDefault (flag.getD i none) = some true := by
  simp [goodIndices, List.mem_filter, List.mem_range]

lemma mem_badIndices {flag : List (Option ℤ)} {i : ℕ} :
    i ∈ badIndices flag ↔
      i < flag.length ∧
        labelOfFlag goodFlagsDefault badFlagsDefault (flag.getD i none) = some false := by
  simp [badIndices, List.mem_filter, List.mem_range]

lemma goodIndices_nodup (flag : List (Option ℤ)) : (goodIndices flag).Nodup :=
  List.Nodup.filter _ (List.nodup_range _)

lemma badIndices_nodup (flag : List (Option ℤ)) : (badIndices flag).Nodup :=
  List.Nodup.filter _ (List.nodup_range _)

lemma good_bad_disjoint {flag : List (Option ℤ)} {i : ℕ}
    (hg : i ∈ goodIndices flag) (hb : i ∈ badIndices flag) : False := by
  rw [mem_goodIndices] at hg
  rw [mem_badIndices] at hb
  rw [hg.2] at hb
  exact Bool.noConfusion (Option.some.inj hb.2)

lemma getD_map_range {α : Type} (f : ℕ → α) (d : α) {i n : ℕ} (hi : i < n) :
    (((List.range n).map f).getD i d) = f i := by
  rw [List.getD_eq_getElem?_getD, List.getElem?_map, List.getElem?_range hi]
  rfl

lemma fitGoodSeg_eq (flag : List (Option ℤ)) (gp : List ℕ) :
    fitGoodSeg flag gp = (gp.drop (nTestGood flag)).drop (nTestGood flag) := by
  rw [List.drop_drop, fitGoodSeg]
  congr 1
  omega

lemma testGoodSeg_subset (flag : List (Option ℤ)) (gp : List ℕ) :
    testGoodSeg flag gp ⊆ gp := List.take_subset _ _

lemma errGoodSeg_subset (flag : List (Option ℤ)) (gp : List ℕ) :
    errGoodSeg flag gp ⊆ gp := by
  intro a h
  exact List.drop_subset _ _ (List.take_subset _ _ h)

lemma label_cases (x : Option ℤ) :
    (labelOfFlag goodFlagsDefault badFlagsDefault x = some true ∨
     labelOfFlag goodFlagsDefault badFlagsDefault x = some false) ↔
      ∃ v, x = some v ∧ (v ∈ goodFlagsDefault ∨ v ∈ badFlagsDefault) := by
  cases x with
  | none => simp [labelOfFlag]
  | some v =>
    constructor
    · intro h
      refine ⟨v, rfl, ?_⟩
      by_cases hb : v ∈ badFlagsDefault
      · exact Or.inr hb
      · by_cases hgd : v ∈ goodFlagsDefault
        · exact Or.inl hgd
        · simp [labelOfFlag, hb, hgd] at h
    · rintro ⟨w, hw, hset⟩
      cases Option.some.inj hw
      by_cases hb : v ∈ badFlagsDefault
      · exact Or.inr (by simp [labelOfFlag, hb])
      · have hgd : v ∈ goodFlagsDefault := by
          rcases hset with h | h
          · exact h
          · exact absurd h hb
        exact Or.inl (by simp [labelOfFlag, hb, hgd])

lemma fitGoodSeg_subset (flag : List (Option ℤ)) (gp : List ℕ) :
    fitGoodSeg flag gp ⊆ gp := List.drop_subset _ _

lemma testBadSeg_subset (flag : List (Option ℤ)) (bp : List ℕ) :
    testBadSeg flag bp ⊆ bp := List.take_subset _ _

lemma errBadSeg_subset (flag : List (Option ℤ)) (bp : List ℕ) :
    errBadSeg flag bp ⊆ bp := List.drop_subset _ _

lemma goodSeg_split (flag : List (Option ℤ)) (gp : List ℕ) :
    ∀ j ∈ gp, j ∈ testGoodSeg flag gp ∨ j ∈ errGoodSeg flag gp ∨ j ∈ fitGoodSeg flag gp := by
  intro j hj
  have h1 : j ∈ testGoodSeg flag gp ++ gp.drop (nTestGood flag) := by
    rw [testGoodSeg, List.take_append_drop]
    exact hj
  rcases List.mem_append.mp h1 with h | h
  · exact Or.inl h
  · have h2 : j ∈ errGoodSeg flag gp ++ fitGoodSeg flag gp := by
      rw [errGoodSeg, fitGoodSeg_eq, List.take_append_drop]
      exact h
    rcases List.mem_append.mp h2 with h' | h'
    · exact Or.inr (Or.inl h')
    · exact Or.inr (Or.inr h')

lemma badSeg_split (flag : List (Option ℤ)) (bp : List ℕ) :
    ∀ j ∈ bp, j ∈ testBadSeg flag bp ∨ j ∈ errBadSeg flag bp := by
  intro j hj
  have h1 : j ∈ testBadSeg flag bp ++ errBadSeg flag bp := by
    rw [testBadSeg, errBadSeg, List.take_append_drop]
    exact hj
  exact List.mem_append.mp h1

/-- Claim C2: for every integer flag array and every pair of injected random
permutations, the three boolean masks returned by `split_data_groups` are
pairwise disjoint, and their union is exactly the set of rows whose flag code
lies in the good set `{1,2}` or the bad set `{3,4}`; rows with a missing or
other flag value appear in none of the three groups. -/
theorem split_data_groups_partition (flag : List (Option ℤ)) (gp bp : List ℕ)
    (hg : gp.Perm (goodIndices flag)) (hb : bp.Perm (badIndices flag))
    (i : ℕ) (hi : i < flag.length) :
    (¬((split_data_groups flag gp bp).fit.getD i false = true ∧
       (split_data_groups flag gp bp).test.getD i false = true)) ∧
    (¬((split_data_groups flag gp bp).fit.getD i false = true ∧
       (split_data_groups flag gp bp).err.getD i false = true)) ∧
    (¬((split_data_groups flag gp bp).test.getD i false = true ∧
       (split_data_groups flag gp bp).err.getD i false = true)) ∧
    (((split_data_groups flag gp bp).fit.getD i false = true ∨
      (split_data_groups flag gp bp).test.getD i false = true ∨
      (split_data_groups flag gp bp).err.getD i false = true) ↔
      ∃ v, flag.getD i none = some v ∧ (v ∈ goodFlagsDefault ∨ v ∈ badFlagsDefault)) := by
  have hgN : gp.Nodup := hg.nodup_iff.mpr (goodIndices_nodup flag)
  have hbN : bp.Nodup := hb.nodup_iff.mpr (badIndices_nodup flag)
  have hgood : ∀ j ∈ gp, j ∈ goodIndices flag := fun j hj => hg.mem_iff.mp hj
  have hbad : ∀ j ∈ bp, j ∈ badIndices flag := fun j hj => hb.mem_iff.mp hj
  have cross : ∀ j, j ∈ gp → j ∈ bp → False :=
    fun j h1 h2 => good_bad_disjoint (hgood j h1) (hbad j h2)
  have hfit : (split_data_groups flag gp bp).fit.getD i false
      = decide (i ∈ fitGoodSeg flag gp) := by
    simp only [split_data_groups]
    exact getD_map_range _ _ hi
  have htest : (split_data_groups flag gp bp).test.getD i false
      = decide (i ∈ testGoodSeg flag gp ∨ i ∈ testBadSeg flag bp) := by
    simp only [split_data_groups]
    exact getD_map_range _ _ hi
  have herr : (split_data_groups flag gp bp).err.getD i false
      = decide (i ∈ errGoodSeg flag gp ∨ i ∈ errBadSeg flag bp) := by
    simp only [split_data_groups]
    exact getD_map_range _ _ hi
  rw [hfit, htest, herr]
  simp only [decide_eq_true_eq]
  have dTGEG : List.Disjoint (testGoodSeg flag gp) (errGoodSeg flag gp) := by
    intro a h1 h2
    exact List.disjoint_take_drop hgN (le_refl (nTestGood flag)) h1
      (List.take_subset _ _ h2)
  have dTGFG : List.Disjoint (testGoodSeg flag gp) (fitGoodSeg flag gp) := by
    intro a h1 h2
    exact List.disjoint_take_drop hgN (by omega : nTestGood flag ≤ 2 * nTestGood flag) h1 h2
  have dEGFG : List.Disjoint (errGoodSeg flag gp) (fitGoodSeg flag gp) := by
    intro a h1 h2
    rw [fitGoodSeg_eq] at h2
    exact List.disjoint_take_drop ((List.drop_sublist _ _).nodup hgN)
      (le_refl (nTestGood flag)) h1 h2
  have dTBEB : List.Disjoint (testBadSeg flag bp) (errBadSeg flag bp) := by
    intro a h1 h2
    exact List.disjoint_take_drop hbN (le_refl (nTestBad flag)) h1 h2
  refine ⟨?_, ?_, ?_, ?_⟩
  · rintro ⟨h1, h2 | h2⟩
    · exact dTGFG h2 h1
    · exact cross i (fitGoodSeg_subset flag gp h1) (testBadSeg_subset flag bp h2)
  · rintro ⟨h1, h2 | h2⟩
    · exact dEGFG h2 h1
    · exact cross i (fitGoodSeg_subset flag gp h1) (errBadSeg_subset flag bp h2)
  · rintro ⟨h1 | h1, h2 | h2⟩
    · exact dTGEG h1 h2
    · exact cross i (testGoodSeg_subset flag gp h1) (errBadSeg_subset flag bp h2)
    · exact cross i (errGoodSeg_subset flag gp h2) (testBadSeg_subset flag bp h1)
    · exact dTBEB h1 h2
  · constructor
    · rintro (h | h | h)
      · have := mem_goodIndices.mp (hgood i (fitGoodSeg_subset flag gp h))
        rcases (label_cases (flag.getD i none)).mp (Or.inl this.2) with ⟨v, hv⟩
        exact ⟨v, hv⟩
      · rcases h with h | h
        · have := mem_goodIndices.mp (hgood i (testGoodSeg_subset flag gp h))
          rcases (label_cases (flag.getD i none)).mp (Or.inl this.2) with ⟨v, hv⟩
          exact ⟨v, hv⟩
        · have := mem_badIndices.mp (hbad i (testBadSeg_subset flag bp h))
          rcases (label_cases (flag.getD i none)).mp (Or.inr this.2) with ⟨v, hv⟩
          exact ⟨v, hv⟩
      · rcases h with h | h
        · have := mem_goodIndices.mp (hgood i (errGoodSeg_subset flag gp h))
          rcases (label_cases (flag.getD i none)).mp (Or.inl this.2) with ⟨v, hv⟩
          exact ⟨v, hv⟩
        · have := mem_badIndices.mp (hbad i (errBadSeg_subset flag bp h))
          rcases (label_cases (flag.getD i none)).mp (Or.inr this.2) with ⟨v, hv⟩
          exact ⟨v, hv⟩
    · rintro ⟨v, hv, hvset⟩
      rcases (label_cases (flag.getD i none)).mpr ⟨v, hv, hvset⟩ with hl | hl
      · have higp : i ∈ gp := hg.mem_iff.mpr (mem_goodIndices.mpr ⟨hi, hl⟩)
        rcases goodSeg_split flag gp i higp with h | h | h
        · exact Or.inr (Or.inl (Or.inl h))
        · exact Or.inr (Or.inr (Or.inl h))
        · exact Or.inl h
      · have hibp : i ∈ bp := hb.mem_iff.mpr (mem_badIndices.mpr ⟨hi, hl⟩)
        rcases badSeg_split flag bp i hibp with h | h
        · exact Or.inr (Or.inl (Or.inr h))
        · exact Or.inr (Or.inr (Or.inr h))

lemma disj_testGood_errGood (flag : List (Option ℤ)) {gp : List ℕ} (hgN : gp.Nodup) :
    List.Disjoint (testGoodSeg flag gp) (errGoodSeg flag gp) := by
  intro a h1 h2
  exact List.disjoint_take_drop hgN (le_refl (nTestGood flag)) h1 (List.take_subset _ _ h2)

lemma disj_testGood_fitGood (flag : List (Option ℤ)) {gp : List ℕ} (hgN : gp.Nodup) :
    List.Disjoint (testGoodSeg flag gp) (fitGoodSeg flag gp) := by
  intro a h1 h2
  exact List.disjoint_take_drop hgN (by omega : nTestGood flag ≤ 2 * nTestGood flag) h1 h2

lemma disj_errGood_fitGood (flag : List (Option ℤ)) {gp : List ℕ} (hgN : gp.Nodup) :
    List.Disjoint (errGoodSeg flag gp) (fitGoodSeg flag gp) := by
  intro a h1 h2
  rw [fitGoodSeg_eq] at h2
  exact List.disjoint_take_drop ((List.drop_sublist _ _).nodup hgN)
    (le_refl (nTestGood flag)) h1 h2

lemma disj_testBad_errBad (flag : List (Option ℤ)) {bp : List ℕ} (hbN : bp.Nodup) :
    List.Disjoint (testBadSeg flag bp) (errBadSeg flag bp) := by
  intro a h1 h2
  exact List.disjoint_take_drop hbN (le_refl (nTestBad flag)) h1 h2

lemma goodSeg_decomp (flag : List (Option ℤ)) (gp : List ℕ) :
    testGoodSeg flag gp ++ (errGoodSeg flag gp ++ fitGoodSeg flag gp) = gp := by
  rw [errGoodSeg, fitGoodSeg_eq, List.take_append_drop, testGoodSeg, List.take_append_drop]

lemma badSeg_decomp (flag : List (Option ℤ)) (bp : List ℕ) :
    testBadSeg flag bp ++ errBadSeg flag bp = bp := by
  rw [testBadSeg, errBadSeg, List.take_append_drop]

lemma mask_fit_getD (flag : List (Option ℤ)) (gp bp : List ℕ) {a : ℕ} (ha : a < flag.length) :
    (split_data_groups flag gp bp).fit.getD a false = decide (a ∈ fitGoodSeg flag gp) := by
  simp only [split_data_groups]
  exact getD_map_range _ _ ha

lemma mask_test_getD (flag : List (Option ℤ)) (gp bp : List ℕ) {a : ℕ} (ha : a < flag.length) :
    (split_data_groups flag gp bp).test.getD a false
      = decide (a ∈ testGoodSeg flag gp ∨ a ∈ testBadSeg flag bp) := by
  simp only [split_data_groups]
  exact getD_map_range _ _ ha

lemma mask_err_getD (flag : List (Option ℤ)) (gp bp : List ℕ) {a : ℕ} (ha : a < flag.length) :
    (split_data_groups flag gp bp).err.getD a false
      = decide (a ∈ errGoodSeg flag gp ∨ a ∈ errBadSeg flag bp) := by
  simp only [split_data_groups]
  exact getD_map_range _ _ ha

/-- Number of rows of `rows` that the boolean mask `mask` marks `True`. -/
def countTrueAt (mask : List Bool) (rows : List ℕ) : ℕ :=
  rows.countP (fun i => mask.getD i false)

/-- Claim C5: for every flag array with `G` good-labeled and `B` bad-labeled
rows and every injected permutation pair, `split_data_groups` sends exactly
`round(0.2*G)` good rows to `test`, exactly `round(0.2*G)` good rows to
`err`, all remaining good rows to `fit`, exactly `round(0.5*B)` bad rows to
`test`, all remaining bad rows to `err`, and no bad row to `fit`
(`nTestGood`/`nTestBad` are those Python-2 roundings). -/
theorem split_data_groups_proportions (flag : List (Option ℤ)) (gp bp : List ℕ)
    (hg : gp.Perm (goodIndices flag)) (hb : bp.Perm (badIndices flag)) :
    countTrueAt (split_data_groups flag gp bp).test (goodIndices flag) = nTestGood flag ∧
    countTrueAt (split_data_groups flag gp bp).err (goodIndices flag) = nTestGood flag ∧
    countTrueAt (split_data_groups flag gp bp).fit (goodIndices flag)
      = (goodIndices flag).length - 2 * nTestGood flag ∧
    countTrueAt (split_data_groups flag gp bp).test (badIndices flag) = nTestBad flag ∧
    countTrueAt (split_data_groups flag gp bp).err (badIndices flag)
      = (badIndices flag).length - nTestBad flag ∧
    countTrueAt (split_data_groups flag gp bp).fit (badIndices flag) = 0 := by
  have hgN : gp.Nodup := hg.nodup_iff.mpr (goodIndices_nodup flag)
  have hbN : bp.Nodup := hb.nodup_iff.mpr (badIndices_nodup flag)
  have hgood : ∀ j ∈ gp, j ∈ goodIndices flag := fun j hj => hg.mem_iff.mp hj
  have hbad : ∀ j ∈ bp, j ∈ badIndices flag := fun j hj => hb.mem_iff.mp hj
  have cross : ∀ j, j ∈ gp → j ∈ bp → False :=
    fun j h1 h2 => good_bad_disjoint (hgood j h1) (hbad j h2)
  have hltg : ∀ j ∈ gp, j < flag.length := fun j hj => (mem_goodIndices.mp (hgood j hj)).1
  have hltb : ∀ j ∈ bp, j < flag.length := fun j hj => (mem_badIndices.mp (hbad j hj)).1
  have hNg : gp.length = (goodIndices flag).length := hg.length_eq
  have hNb : bp.length = (badIndices flag).length := hb.length_eq
  have hNt2 : 2 * nTestGood flag ≤ (goodIndices flag).length := by
    unfold nTestGood
    omega
  have hNtb : nTestBad flag ≤ (badIndices flag).length := by
    unfold nTestBad
    omega
  have lTG : (testGoodSeg flag gp).length = nTestGood flag := by
    rw [testGoodSeg, List.length_take]
    omega
  have lEG : (errGoodSeg flag gp).length = nTestGood flag := by
    rw [errGoodSeg, List.length_take, List.length_drop]
    omega
  have lFG : (fitGoodSeg flag gp).length = (goodIndices flag).length - 2 * nTestGood flag := by
    rw [fitGoodSeg, List.length_drop]
    omega
  have lTB : (testBadSeg flag bp).length = nTestBad flag := by
    rw [testBadSeg, List.length_take]
    omega
  have lEB : (errBadSeg flag bp).length = (badIndices flag).length - nTestBad flag := by
    rw [errBadSeg, List.length_drop]
    omega
  have goodCount : ∀ p : ℕ → Bool, (goodIndices flag).countP p
      = (testGoodSeg flag gp).countP p
        + ((errGoodSeg flag gp).countP p + (fitGoodSeg flag gp).countP p) := by
    intro p
    rw [← hg.countP_eq p]
    conv_lhs => rw [← goodSeg_decomp flag gp]
    rw [List.countP_append, List.countP_append]
  have badCount : ∀ p : ℕ → Bool, (badIndices flag).countP p
      = (testBadSeg flag bp).countP p + (errBadSeg flag bp).countP p := by
    intro p
    rw [← hb.countP_eq p]
    conv_lhs => rw [← badSeg_decomp flag bp]
    rw [List.countP_append]
  refine ⟨?_, ?_, ?_, ?_, ?_, ?_⟩
  · -- good rows in test
    rw [countTrueAt, goodCount]
    have e1 : (testGoodSeg flag gp).countP
        (fun i => (split_data_groups flag gp bp).test.getD i false)
        = (testGoodSeg flag gp).length :=
      List.countP_eq_length.mpr (fun a ha => by
        rw [mask_test_getD flag gp bp (hltg a (testGoodSeg_subset flag gp ha))]
        exact decide_eq_true (Or.inl ha))
    have e2 : (errGoodSeg flag gp).countP
        (fun i => (split_data_groups flag gp bp).test.getD i false) = 0 :=
      List.countP_eq_zero.mpr (fun a ha => by
        rw [mask_test_getD flag gp bp (hltg a (errGoodSeg_subset flag gp ha))]
        simp only [decide_eq_true_eq]
        rintro (h | h)
        · exact disj_testGood_errGood flag hgN h ha
        · exact cross a (errGoodSeg_subset flag gp ha) (testBadSeg_subset flag bp h))
    have e3 : (fitGoodSeg flag gp).countP
        (fun i => (split_data_groups flag gp bp).test.getD i false) = 0 :=
      List.countP_eq_zero.mpr (fun a ha => by
        rw [mask_test_getD flag gp bp (hltg a (fitGoodSeg_subset flag gp ha))]
        simp only [decide_eq_true_eq]
        rintro (h | h)
        · exact disj_testGood_fitGood flag hgN h ha
        · exact cross a (fitGoodSeg_subset flag gp ha) (testBadSeg_subset flag bp h))
    rw [e1, e2, e3, lTG]
    omega
  · -- good rows in err
    rw [countTrueAt, goodCount]
    have e1 : (testGoodSeg flag gp).countP
        (fun i => (split_data_groups flag gp bp).err.getD i false) = 0 :=
      List.countP_eq_zero.mpr (fun a ha => by
        rw [mask_err_getD flag gp bp (hltg a (testGoodSeg_subset flag gp ha))]
        simp only [decide_eq_true_eq]
        rintro (h | h)
        · exact disj_testGood_errGood flag hgN ha h
        · exact cross a (testGoodSeg_subset flag gp ha) (errBadSeg_subset flag bp h))
    have e2 : (errGoodSeg flag gp).countP
        (fun i => (split_data_groups flag gp bp).err.getD i false)
        = (errGoodSeg flag gp).length :=
      List.countP_eq_length.mpr (fun a ha => by
        rw [mask_err_getD flag gp bp (hltg a (errGoodSeg_subset flag gp ha))]
        exact decide_eq_true (Or.inl ha))
    have e3 : (fitGoodSeg flag gp).countP
        (fun i => (split_data_groups flag gp bp).err.getD i false) = 0 :=
      List.countP_eq_zero.mpr (fun a ha => by
        rw [mask_err_getD flag gp bp (hltg a (fitGoodSeg_subset flag gp ha))]
        simp only [decide_eq_true_eq]
        rintro (h | h)
        · exact disj_errGood_fitGood flag hgN h ha
        · exact cross a (fitGoodSeg_subset flag gp ha) (errBadSeg_subset flag bp h))
    rw [e1, e2, e3, lEG]
    omega
  · -- good rows in fit
    rw [countTrueAt, goodCount]
    have e1 : (testGoodSeg flag gp).countP
        (fun i => (split_data_groups flag gp bp).fit.getD i false) = 0 :=
      List.countP_eq_zero.mpr (fun a ha => by
        rw [mask_fit_getD flag gp bp (hltg a (testGoodSeg_subset flag gp ha))]
        simp only [decide_eq_true_eq]
        intro h
        exact disj_testGood_fitGood flag hgN ha h)
    have e2 : (errGoodSeg flag gp).countP
        (fun i => (split_data_groups flag gp bp).fit.getD i false) = 0 :=
      List.countP_eq_zero.mpr (fun a ha => by
        rw [mask_fit_getD flag gp bp (hltg a (errGoodSeg_subset flag gp ha))]
        simp only [decide_eq_true_eq]
        intro h
        exact disj_errGood_fitGood flag hgN ha h)
    have e3 : (fitGoodSeg flag gp).countP
        (fun i => (split_data_groups flag gp bp).fit.getD i false)
        = (fitGoodSeg flag gp).length :=
      List.countP_eq_length.mpr (fun a ha => by
        rw [mask_fit_getD flag gp bp (hltg a (fitGoodSeg_subset flag gp ha))]
        exact decide_eq_true ha)
    rw [e1, e2, e3, lFG]
    omega
  · -- bad rows in test
    rw [countTrueAt, badCount]
    have e1 : (testBadSeg flag bp).countP
        (fun i => (split_data_groups flag gp bp).test.getD i false)
        = (testBadSeg flag bp).length :=
      List.countP_eq_length.mpr (fun a ha => by
        rw [mask_test_getD flag gp bp (hltb a (testBadSeg_subset flag bp ha))]
        exact decide_eq_true (Or.inr ha))
    have e2 : (errBadSeg flag bp).countP
        (fun i => (split_data_groups flag gp bp).test.getD i false) = 0 :=
      List.countP_eq_zero.mpr (fun a ha => by
        rw [mask_test_getD flag gp bp (hltb a (errBadSeg_subset flag bp ha))]
        simp only [decide_eq_true_eq]
        rintro (h | h)
        · exact cross a (testGoodSeg_subset flag gp h) (errBadSeg_subset flag bp ha)
        · exact disj_testBad_errBad flag hbN h ha)
    rw [e1, e2, lTB]
    omega
  · -- bad rows in err
    rw [countTrueAt, badCount]
    have e1 : (testBadSeg flag bp).countP
        (fun i => (split_data_groups flag gp bp).err.getD i false) = 0 :=
      List.countP_eq_zero.mpr (fun a ha => by
        rw [mask_err_getD flag gp bp (hltb a (testBadSeg_subset flag bp ha))]
        simp only [decide_eq_true_eq]
        rintro (h | h)
        · exact cross a (errGoodSeg_subset flag gp h) (testBadSeg_subset flag bp ha)
        · exact disj_testBad_errBad flag hbN ha h)
    have e2 : (errBadSeg flag bp).countP
        (fun i => (split_data_groups flag gp bp).err.getD i false)
        = (errBadSeg flag bp).length :=
      List.countP_eq_length.mpr (fun a ha => by
        rw [mask_err_getD flag gp bp (hltb a (errBadSeg_subset flag bp ha))]
        exact decide_eq_true (Or.inr ha))
    rw [e1, e2, lEB]
    omega
  · -- bad rows in fit: none
    rw [countTrueAt, badCount]
    have e1 : (testBadSeg flag bp).countP
        (fun i => (split_data_groups flag gp bp).fit.getD i false) = 0 :=
      List.countP_eq_zero.mpr (fun a ha => by
        rw [mask_fit_getD flag gp bp (hltb a (testBadSeg_subset flag bp ha))]
        simp only [decide_eq_true_eq]
        intro h
        exact cross a (fitGoodSeg_subset flag gp h) (testBadSeg_subset flag bp ha))
    have e2 : (errBadSeg flag bp).countP
        (fun i => (split_data_groups flag gp bp).fit.getD i false) = 0 :=
      List.countP_eq_zero.mpr (fun a ha => by
        rw [mask_fit_getD flag gp bp (hltb a (errBadSeg_subset flag bp ha))]
        simp only [decide_eq_true_eq]
        intro h
        exact cross a (fitGoodSeg_subset flag gp h) (errBadSeg_subset flag bp ha))
    rw [e1, e2]

/-- Concrete flag array used by the partitioner witnesses: three good rows
(indices 0, 2, 5), two bad rows (1, 4), one missing row (3). -/
def flagW : List (Option ℤ) := [some 1, some 3, some 2, none, some 4, some 1]

/-- Witness for claim C2: the partition property evaluated at `flagW`,
row 0, with the identity permutations. -/
theorem split_data_groups_partition_witness :
    (¬((split_data_groups flagW (goodIndices flagW) (badIndices flagW)).fit.getD 0 false = true ∧
       (split_data_groups flagW (goodIndices flagW) (badIndices flagW)).test.getD 0 false = true)) ∧
    (¬((split_data_groups flagW (goodIndices flagW) (badIndices flagW)).fit.getD 0 false = true ∧
       (split_data_groups flagW (goodIndices flagW) (badIndices flagW)).err.getD 0 false = true)) ∧
    (¬((split_data_groups flagW (goodIndices flagW) (badIndices flagW)).test.getD 0 false = true ∧
       (split_data_groups flagW (goodIndices flagW) (badIndices flagW)).err.getD 0 false = true)) ∧
    (((split_data_groups flagW (goodIndices flagW) (badIndices flagW)).fit.getD 0 false = true ∨
      (split_data_groups flagW (goodIndices flagW) (badIndices flagW)).test.getD 0 false = true ∨
      (split_data_groups flagW (goodIndices flagW) (badIndices flagW)).err.getD 0 false = true) ↔
      ∃ v, flagW.getD 0 none = some v ∧ (v ∈ goodFlagsDefault ∨ v ∈ badFlagsDefault)) :=
  split_data_groups_partition flagW (goodIndices flagW) (badIndices flagW)
    (List.Perm.refl _) (List.Perm.refl _) 0 (by decide)

/-- Witness for claim C5: the exact allocation counts evaluated at `flagW`
with the identity permutations. -/
theorem split_data_groups_proportions_witness :
    countTrueAt (split_data_groups flagW (goodIndices flagW) (badIndices flagW)).test
      (goodIndices flagW) = nTestGood flagW ∧
    countTrueAt (split_data_groups flagW (goodIndices flagW) (badIndices flagW)).err
      (goodIndices flagW) = nTestGood flagW ∧
    countTrueAt (split_data_groups flagW (goodIndices flagW) (badIndices flagW)).fit
      (goodIndices flagW) = (goodIndices flagW).length - 2 * nTestGood flagW ∧
    countTrueAt (split_data_groups flagW (goodIndices flagW) (badIndices flagW)).test
      (badIndices flagW) = nTestBad flagW ∧
    countTrueAt (split_data_groups flagW (goodIndices flagW) (badIndices flagW)).err
      (badIndices flagW) = (badIndices flagW).length - nTestBad flagW ∧
    countTrueAt (split_data_groups flagW (goodIndices flagW) (badIndices flagW)).fit
      (badIndices flagW) = 0 :=
  split_data_groups_proportions flagW (goodIndices flagW) (badIndices flagW)
    (List.Perm.refl _) (List.Perm.refl _)

/-- Counterexample for claim C9: on a zero-size flag array, and on an array
with no valid good/bad entry, `split_data_groups` raises nothing and returns
a degenerate (all-empty / all-False) partition, contradicting the claim that
it fails with an invalid-input error. -/
theorem split_data_groups_no_fail_cex :
    split_data_groups [] [] [] = { fit := [], test := [], err := [] } ∧
    split_data_groups [none, some 7] [] [] =
      { fit := [false, false], test := [false, false], err := [false, false] } :=
  ⟨rfl, rfl⟩

/-- Claim C9 (amended): `split_data_groups` performs no emptiness validation;
whenever the flag array is empty or has no row with a valid good/bad code, it
returns the degenerate partition whose three masks are all-`False` (empty for
a zero-size input) instead of failing. -/
theorem split_data_groups_degenerate (flag : List (Option ℤ)) (gp bp : List ℕ)
    (hg : gp.Perm (goodIndices flag)) (hb : bp.Perm (badIndices flag))
    (h : ∀ x ∈ flag, labelOfFlag goodFlagsDefault badFlagsDefault x = none) :
    split_data_groups flag gp bp =
      { fit := List.replicate flag.length false
        test := List.replicate flag.length false
        err := List.replicate flag.length false } := by
  have hgd : ∀ i, i < flag.length → flag.getD i none ∈ flag := by
    intro i hi
    rw [List.getD_eq_getElem?_getD, List.getElem?_eq_getElem hi]
    exact List.getElem_mem hi
  have hgi : goodIndices flag = [] := by
    apply List.filter_eq_nil_iff.mpr
    intro a ha
    rw [h (flag.getD a none) (hgd a (List.mem_range.mp ha))]
    simp
  have hbi : badIndices flag = [] := by
    apply List.filter_eq_nil_iff.mpr
    intro a ha
    rw [h (flag.getD a none) (hgd a (List.mem_range.mp ha))]
    simp
  have hgp : gp = [] := by
    rw [hgi] at hg
    exact hg.eq_nil
  have hbp : bp = [] := by
    rw [hbi] at hb
    exact hb.eq_nil
  subst hgp
  subst hbp
  simp only [split_data_groups, testGoodSeg, errGoodSeg, fitGoodSeg, testBadSeg, errBadSeg,
    List.take_nil, List.drop_nil, List.not_mem_nil, or_self, decide_False]
  simp [List.map_const', List.length_range]

/-- Witness for claim C9 (amended) at a flag array with one missing and one
out-of-range code. -/
theorem split_data_groups_degenerate_witness :
    split_data_groups [none, some 7] [] [] =
      { fit := List.replicate 2 false
        test := List.replicate 2 false
        err := List.replicate 2 false } :=
  split_data_groups_degenerate [none, some 7] [] []
    (List.Perm.refl []) (List.Perm.refl []) (by decide)

/-! ## Anomaly scorer: `estimate_anomaly` (anomaly_detection.py lines 80-118)

The external numeric collaborators are explicit parameters: `lg` is the
natural logarithm (`ma.log`), and each fitted parameter entry carries the
function `x ↦ exponweib.sf(x, *param)` determined by its SciPy parameter
vector.  Everything else is translated statement by statement. -/

/-- Python dict lookup `features[t]` over an association list (dict keys are
unique; the first matching key wins). -/
def lookupFeature : List (String × List (Option ℚ)) → String → Option (List (Option ℚ))
  | [], _ => none
  | p :: ps, t => if p.1 = t then some p.2 else lookupFeature ps t

/-- `tmp[tmp == 0] = 1e-15` — only an exactly-zero survival probability is
clamped to the arbitrary positive floor. -/
def clampProb (x : ℚ) : ℚ := if x = 0 then 1 / 10 ^ 15 else x

/-- `p = ma.log(tmp)` over the compressed (unmasked) values of one feature
column, in row order. -/
def featureLogs (lg sfF : ℚ → ℚ) (col : List (Option ℚ)) : List ℚ :=
  col.filterMap (fun x => x.map (fun v => lg (clampProb (sfF v))))

/-- `prob[ind] = prob[ind] + p` — the produtorium update adds the log term
at each unmasked position and leaves masked positions untouched. -/
def updProd (lg sfF : ℚ → ℚ) (prob : List ℚ) (col : List (Option ℚ)) : List ℚ :=
  List.zipWith
    (fun pr x =>
      match x with
      | none => pr
      | some v => pr + lg (clampProb (sfF v))) prob col

/-- `prob[ind]` — the current scores compressed to the unmasked positions of
`col`. -/
def maCompress (prob : List ℚ) (col : List (Option ℚ)) : List ℚ :=
  (List.zip prob col).filterMap (fun pc => if pc.2.isSome then some pc.1 else none)

/-- Python `bool()` of a numpy array: a one-element array yields its element,
an empty array is falsy, and any longer array raises
`ValueError: The truth value of an array with more than one element is
ambiguous`. -/
def pyBool : List Bool → Except String Bool
  | [] => .ok false
  | [b] => .ok b
  | _ => .error "ValueError: truth value of an array with more than one element is ambiguous"

/-- Python builtin `min(a, b)` applied to two numpy arrays, as on source line
114: it evaluates `bool(b < a)` — an elementwise comparison array — and
returns the whole of `b` or of `a`. -/
def pyMin (a b : List ℚ) : Except String (List ℚ) :=
  match pyBool (List.zipWith (fun y x => decide (y < x)) b a) with
  | .error e => .error e
  | .ok lt => .ok (if lt then b else a)

/-- `prob[ind] = vals` — scatter `vals` back onto the unmasked positions of
`col`, in order. -/
def maScatter : List ℚ → List (Option ℚ) → List ℚ → List ℚ
  | [], _, _ => []
  | pr :: ps, none :: cs, vals => pr :: maScatter ps cs vals
  | pr :: ps, some _ :: cs, vals => vals.headD pr :: maScatter ps cs vals.tail
  | pr :: ps, [], _ => pr :: ps

/-- The `for t in params.keys()` loop of `estimate_anomaly` (lines 101-116).
A missing feature key raises `KeyError`; a column whose length disagrees with
`prob` makes the boolean-mask indexing `prob[ind]` fail; an unrecognized
`method` hits the bare `return`, i.e. Python `None` (`Except.ok none`), with
no exception raised. -/
def anomalyLoop (lg : ℚ → ℚ) (features : List (String × List (Option ℚ))) (method : String) :
    List (String × (ℚ → ℚ)) → List ℚ → Except String (Option (List ℚ))
  | [], prob => .ok (some prob)
  | (t, sfF) :: rest, prob =>
    match lookupFeature features t with
    | none => .error "KeyError"
    | some col =>
      if method = "produtorium" then
        if col.length = prob.length then
          anomalyLoop lg features method rest (updProd lg sfF prob col)
        else .error "IndexError"
      else if method = "min" then
        if col.length = prob.length then
          match pyMin (maCompress prob col) (featureLogs lg sfF col) with
          | .error e => .error e
          | .ok vals => anomalyLoop lg features method rest (maScatter prob col vals)
        else .error "IndexError"
      else .ok none

/-- Row count `len(features[features.keys()[0]])` of a non-empty mapping. -/
def featLen (features : List (String × List (Option ℚ))) : ℕ :=
  match features with
  | [] => 0
  | p :: _ => p.2.length

/-- Embedding of `estimate_anomaly(features, params, method)`.
`features.keys()[0]` on an empty dict raises `IndexError` before anything
else; otherwise `prob = ma.zeros(n)` and the per-parameter loop runs. -/
def estimate_anomaly (lg : ℚ → ℚ) (features : List (String × List (Option ℚ)))
    (params : List (String × (ℚ → ℚ))) (method : String) :
    Except String (Option (List ℚ)) :=
  match features with
  | [] => .error "IndexError"
  | _ :: _ => anomalyLoop lg features method params (List.replicate (featLen features) 0)

/-- Spec-side per-row combined score: the sum, over the fitted features with
a non-missing value in row `r`, of that value's log survival probability. -/
def rowScoreSpec (lg : ℚ → ℚ) (features : List (String × List (Option ℚ)))
    (params : List (String × (ℚ → ℚ))) (r : ℕ) : ℚ :=
  (params.map (fun p =>
    ((lookupFeature features p.1).bind (fun col => col.getD r none)).elim 0
      (fun v => lg (clampProb (p.2 v))))).sum

lemma rowScoreSpec_nil (lg : ℚ → ℚ) (features : List (String × List (Option ℚ))) (r : ℕ) :
    rowScoreSpec lg features [] r = 0 := rfl

lemma rowScoreSpec_cons (lg : ℚ → ℚ) (features : List (String × List (Option ℚ)))
    (p : String × (ℚ → ℚ)) (ps : List (String × (ℚ → ℚ))) (r : ℕ) :
    rowScoreSpec lg features (p :: ps) r
      = ((lookupFeature features p.1).bind (fun col => col.getD r none)).elim 0
          (fun v => lg (clampProb (p.2 v))) + rowScoreSpec lg features ps r := by
  simp [rowScoreSpec]

lemma updProd_length (lg sfF : ℚ → ℚ) (prob : List ℚ) (col : List (Option ℚ)) :
    (updProd lg sfF prob col).length = min prob.length col.length := by
  simp [updProd]

lemma updProd_getD (lg sfF : ℚ → ℚ) :
    ∀ (prob : List ℚ) (col : List (Option ℚ)) (r : ℕ), r < prob.length → r < col.length →
      (updProd lg sfF prob col).getD r 0
        = (col.getD r none).elim (prob.getD r 0) (fun v => prob.getD r 0 + lg (clampProb (sfF v)))
  | [], col, r, h1, _ => by simp at h1
  | p :: ps, [], r, _, h2 => by simp at h2
  | p :: ps, c :: cs, 0, _, _ => by cases c <;> simp [updProd]
  | p :: ps, c :: cs, r + 1, h1, h2 => by
    have ih := updProd_getD lg sfF ps cs r (by simpa using h1) (by simpa using h2)
    simpa [updProd] using ih

lemma self_eq_map_range_getD (prob : List ℚ) :
    (List.range prob.length).map (fun r => prob.getD r 0) = prob := by
  apply List.ext_getElem
  · simp
  · intro n h1 h2
    simp only [List.getElem_map, List.getElem_range]
    rw [List.getD_eq_getElem?_getD, List.getElem?_eq_getElem h2]
    rfl

lemma getD_replicate_zero (n r : ℕ) : (List.replicate n (0 : ℚ)).getD r 0 = 0 := by
  induction n generalizing r with
  | zero => simp
  | succ k ih => cases r <;> simp [List.replicate_succ, ih]

lemma anomalyLoop_prod (lg : ℚ → ℚ) (features : List (String × List (Option ℚ))) :
    ∀ (ps : List (String × (ℚ → ℚ))) (prob : List ℚ),
      (∀ t ∈ ps.map Prod.fst, ∃ col, lookupFeature features t = some col ∧
        col.length = prob.length) →
      anomalyLoop lg features "produtorium" ps prob =
        .ok (some ((List.range prob.length).map
          (fun r => prob.getD r 0 + rowScoreSpec lg features ps r)))
  | [], prob, _ => by
    simp only [anomalyLoop, rowScoreSpec_nil, add_zero, self_eq_map_range_getD]
  | (t, sfF) :: rest, prob, hk => by
    obtain ⟨col, hcol, hlen⟩ := hk t (by simp)
    have hknext : ∀ u ∈ rest.map Prod.fst, ∃ c, lookupFeature features u = some c ∧
        c.length = (updProd lg sfF prob col).length := by
      intro u hu
      obtain ⟨c, hc, hcl⟩ := hk u (by simp [hu])
      refine ⟨c, hc, ?_⟩
      rw [updProd_length]
      omega
    have ih := anomalyLoop_prod lg features rest (updProd lg sfF prob col) hknext
    simp only [anomalyLoop, hcol]
    rw [if_pos trivial, if_pos hlen, ih]
    congr 1
    congr 1
    have hul : (updProd lg sfF prob col).length = prob.length := by
      rw [updProd_length]
      omega
    rw [hul]
    apply List.map_congr_left
    intro r hr
    have hrlt : r < prob.length := List.mem_range.mp hr
    rw [updProd_getD lg sfF prob col r hrlt (by omega), rowScoreSpec_cons, hcol]
    simp only [Option.some_bind, List.getD_eq_getElem?_getD]
    cases hc : col[r]? with
    | none => simp
    | some x =>
      cases x with
      | none => simp
      | some v => simp [add_assoc]

lemma estimate_anomaly_prod_eq (lg : ℚ → ℚ)
    (features : List (String × List (Option ℚ))) (params : List (String × (ℚ → ℚ)))
    (hne : features ≠ [])
    (hk : ∀ t ∈ params.map Prod.fst, ∃ col, lookupFeature features t = some col ∧
      col.length = featLen features) :
    estimate_anomaly lg features params "produtorium" =
      .ok (some ((List.range (featLen features)).map
        (fun r => rowScoreSpec lg features params r))) := by
  match features, hne with
  | f0 :: fs, _ =>
    show anomalyLoop lg (f0 :: fs) "produtorium" params
        (List.replicate (featLen (f0 :: fs)) 0) = _
    rw [anomalyLoop_prod lg (f0 :: fs) params _
      (by simpa [List.length_replicate] using hk)]
    congr 1
    congr 1
    rw [List.length_replicate]
    apply List.map_congr_left
    intro r _
    rw [getD_replicate_zero, zero_add]

/-- Claim C6: with the product method, `estimate_anomaly` assigns every row
the sum of the per-feature log survival probabilities over the features with
a non-missing value in that row, and any row whose contributing features are
all missing (in particular every row of an all-missing table) gets score 0. -/
theorem estimate_anomaly_product_spec (lg : ℚ → ℚ)
    (features : List (String × List (Option ℚ))) (params : List (String × (ℚ → ℚ)))
    (hne : features ≠ [])
    (hk : ∀ t ∈ params.map Prod.fst, ∃ col, lookupFeature features t = some col ∧
      col.length = featLen features) :
    estimate_anomaly lg features params "produtorium" =
      .ok (some ((List.range (featLen features)).map
        (fun r => rowScoreSpec lg features params r))) ∧
    ∀ r, (∀ t ∈ params.map Prod.fst, ∀ col, lookupFeature features t = some col →
        col.getD r none = none) →
      rowScoreSpec lg features params r = 0 := by
  constructor
  · exact estimate_anomaly_prod_eq lg features params hne hk
  · intro r hall
    apply List.sum_eq_zero
    intro x hx
    rw [List.mem_map] at hx
    obtain ⟨p, hp, rfl⟩ := hx
    cases hcol : lookupFeature features p.1 with
    | none => simp
    | some col =>
      have hnone := hall p.1 (List.mem_map_of_mem _ hp) col hcol
      rw [List.getD_eq_getElem?_getD] at hnone
      simp [hnone]

/-- Concrete inputs for the scorer witnesses: one feature with one observed
and one missing value, one fitted parameter whose survival function is
constantly `1/2`, and a concrete stand-in for the external logarithm that is
nonpositive on `(0, 1]`. -/
def featsW : List (String × List (Option ℚ)) := [("g", [some 1, none])]

def paramsW : List (String × (ℚ → ℚ)) := [("g", fun _ => 1 / 2)]

def lgW : ℚ → ℚ := fun x => x - 1

/-- Witness for claim C6 at the concrete scorer inputs. -/
theorem estimate_anomaly_product_spec_witness :
    estimate_anomaly lgW featsW paramsW "produtorium" =
      .ok (some ((List.range (featLen featsW)).map
        (fun r => rowScoreSpec lgW featsW paramsW r))) ∧
    ∀ r, (∀ t ∈ paramsW.map Prod.fst, ∀ col, lookupFeature featsW t = some col →
        col.getD r none = none) →
      rowScoreSpec lgW featsW paramsW r = 0 :=
  estimate_anomaly_product_spec lgW featsW paramsW (by simp [featsW])
    (by
      intro t ht
      simp only [paramsW, List.map_cons, List.map_nil, List.mem_singleton] at ht
      subst ht
      exact ⟨[some 1, none], rfl, rfl⟩)

/-- Counterexample for claim C4: `estimate_anomaly` does not fail on an
unrecognized method.  With an empty `params` mapping the method is never even
inspected and a complete all-zero score array is returned; with a non-empty
`params` mapping the bare `return` yields Python `None` — no invalid-input
error is raised in either case. -/
theorem estimate_anomaly_method_cex :
    estimate_anomaly (fun x => x) [("g", [some 1])] [] "bogus" = .ok (some [0]) ∧
    estimate_anomaly (fun x => x) [("g", [some 1])] [("g", fun _ => 1)] "bogus" = .ok none :=
  ⟨rfl, rfl⟩

/-- Claim C4 (amended): on a method that is neither `produtorium` nor `min`,
`estimate_anomaly` raises no error: with an empty `params` mapping it returns
the all-zero score array, and with a non-empty `params` mapping (whose first
key resolves in `features`) it returns Python `None`. -/
theorem estimate_anomaly_unknown_method (lg : ℚ → ℚ)
    (features : List (String × List (Option ℚ))) (params : List (String × (ℚ → ℚ)))
    (method : String)
    (hm1 : method ≠ "produtorium") (hm2 : method ≠ "min") (hne : features ≠ []) :
    (params = [] →
      estimate_anomaly lg features params method
        = .ok (some (List.replicate (featLen features) 0))) ∧
    (∀ t sfF rest, params = (t, sfF) :: rest →
      ∀ col, lookupFeature features t = some col →
        estimate_anomaly lg features params method = .ok none) := by
  obtain ⟨f0, fs, rfl⟩ : ∃ f0 fs, features = f0 :: fs := by
    cases features with
    | nil => exact absurd rfl hne
    | cons a l => exact ⟨a, l, rfl⟩
  constructor
  · rintro rfl
    rfl
  · rintro t sfF rest rfl col hcol
    show anomalyLoop lg (f0 :: fs) method ((t, sfF) :: rest)
        (List.replicate (featLen (f0 :: fs)) 0) = .ok none
    simp only [anomalyLoop, hcol]
    rw [if_neg hm1, if_neg hm2]

/-- Witness for claim C4 (amended) at the concrete inputs of the
counterexample. -/
theorem estimate_anomaly_unknown_method_witness :
    (([("g", fun _ => (1 : ℚ))] : List (String × (ℚ → ℚ))) = [] →
      estimate_anomaly (fun x => x) [("g", [some 1])] [("g", fun _ => 1)] "bogus"
        = .ok (some (List.replicate (featLen [("g", [some (1 : ℚ)])]) 0))) ∧
    (∀ t sfF rest, ([("g", fun _ => (1 : ℚ))] : List (String × (ℚ → ℚ))) = (t, sfF) :: rest →
      ∀ col, lookupFeature [("g", [some 1])] t = some col →
        estimate_anomaly (fun x => x) [("g", [some 1])] [("g", fun _ => 1)] "bogus"
          = .ok none) :=
  estimate_anomaly_unknown_method (fun x => x) [("g", [some 1])] [("g", fun _ => 1)] "bogus"
    (by decide) (by decide) (by simp)

/-- Claim C10: `estimate_anomaly` sizes its output from the first entry of
the features mapping, so every call with an empty features mapping fails with
an indexing error (`features.keys()[0]` on an empty dict) before any score is
produced, whatever `params` and `method` are. -/
theorem estimate_anomaly_empty_features_error (lg : ℚ → ℚ)
    (params : List (String × (ℚ → ℚ))) (method : String) :
    estimate_anomaly lg [] params method = .error "IndexError" := rfl

/-- Claim C8: the `min` branch applies the Python builtin `min` to two
arrays (`min(prob[ind], p)`, line 114).  As soon as a feature has more than
one unmasked row this evaluates `bool()` of a multi-element comparison array
and raises `ValueError` instead of computing the promised per-row minimum;
the module docstring ("Min(P(x_i)), the lowest probability for each
measurement") shows the claim describes the intent and the code is the slip.
Here: two fitted features, two observed rows each. -/
theorem estimate_anomaly_min_valueerror :
    estimate_anomaly (fun x => x - 1)
      [("f", [some 1, some 2]), ("g", [some 1, some 2])]
      [("f", fun _ => 1 / 2), ("g", fun _ => 1 / 2)] "min"
      = .error "ValueError: truth value of an array with more than one element is ambiguous" :=
  rfl

/-- Unmask one cell: replace the entry of feature `t0` at row `r` by the
observed value `v`, leaving every other cell of the table unchanged. -/
def setFeature (features : List (String × List (Option ℚ))) (t0 : String) (r : ℕ) (v : ℚ) :
    List (String × List (Option ℚ)) :=
  features.map (fun p => if p.1 = t0 then (p.1, p.2.set r (some v)) else p)

/-- The score list of a successful `estimate_anomaly` call (`[]` when the
call raises or returns Python `None`). -/
def anomalyScores (lg : ℚ → ℚ) (features : List (String × List (Option ℚ)))
    (params : List (String × (ℚ → ℚ))) (method : String) : List ℚ :=
  match estimate_anomaly lg features params method with
  | .ok (some l) => l
  | _ => []

lemma lookupFeature_setFeature_self (features : List (String × List (Option ℚ)))
    (t0 : String) (r : ℕ) (v : ℚ) :
    lookupFeature (setFeature features t0 r v) t0
      = (lookupFeature features t0).map (fun c => c.set r (some v)) := by
  induction features with
  | nil => rfl
  | cons p ps ih =>
    by_cases h : p.1 = t0
    · simp [setFeature, lookupFeature, h]
    · simp only [setFeature, List.map_cons, if_neg h, lookupFeature]
      simpa [setFeature] using ih

lemma lookupFeature_setFeature_ne (features : List (String × List (Option ℚ)))
    (t0 : String) (r : ℕ) (v : ℚ) (t : String) (ht : t ≠ t0) :
    lookupFeature (setFeature features t0 r v) t = lookupFeature features t := by
  induction features with
  | nil => rfl
  | cons p ps ih =>
    by_cases h : p.1 = t0
    · have hpt : p.1 ≠ t := fun hc => ht (hc ▸ h)
      simp only [setFeature, List.map_cons, if_pos h, lookupFeature]
      rw [if_neg hpt, if_neg hpt]
      simpa [setFeature] using ih
    · by_cases hpt : p.1 = t
      · simp only [setFeature, List.map_cons, if_neg h, lookupFeature]
        rw [if_pos hpt, if_pos hpt]
      · simp only [setFeature, List.map_cons, if_neg h, lookupFeature]
        rw [if_neg hpt, if_neg hpt]
        simpa [setFeature] using ih

lemma featLen_setFeature (features : List (String × List (Option ℚ)))
    (t0 : String) (r : ℕ) (v : ℚ) :
    featLen (setFeature features t0 r v) = featLen features := by
  cases features with
  | nil => rfl
  | cons p ps =>
    by_cases h : p.1 = t0
    · simp [setFeature, featLen, if_pos h, List.length_set]
    · simp [setFeature, featLen, if_neg h]

lemma setFeature_ne_nil {features : List (String × List (Option ℚ))}
    (hne : features ≠ []) (t0 : String) (r : ℕ) (v : ℚ) :
    setFeature features t0 r v ≠ [] := by
  cases features with
  | nil => exact absurd rfl hne
  | cons p ps => simp [setFeature]

lemma clampProb_pos_le_one {x : ℚ} (h0 : 0 ≤ x) (h1 : x ≤ 1) :
    0 < clampProb x ∧ clampProb x ≤ 1 := by
  unfold clampProb
  split_ifs with h
  · norm_num
  · exact ⟨lt_of_le_of_ne h0 (Ne.symm h), h1⟩

/-- Claim C7: product-method monotonicity.  For a fixed row and fixed fitted
parameters whose survival functions take values in `[0, 1]` (and a logarithm
that is nonpositive on `(0, 1]`, as the real `log` is), unmasking one
additional feature value for that row can only decrease or leave unchanged
the combined score `estimate_anomaly` assigns to that row, because the added
log survival term is `≤ 0` after the probability floor. -/
theorem estimate_anomaly_product_monotone (lg : ℚ → ℚ)
    (features : List (String × List (Option ℚ))) (params : List (String × (ℚ → ℚ)))
    (t0 : String) (r : ℕ) (v : ℚ) (col : List (Option ℚ))
    (hne : features ≠ [])
    (hk : ∀ t ∈ params.map Prod.fst, ∃ c, lookupFeature features t = some c ∧
      c.length = featLen features)
    (hcol : lookupFeature features t0 = some col)
    (hmask : col.getD r none = none)
    (hsf : ∀ p ∈ params, ∀ x : ℚ, 0 ≤ p.2 x ∧ p.2 x ≤ 1)
    (hlg : ∀ x : ℚ, 0 < x → x ≤ 1 → lg x ≤ 0) :
    (anomalyScores lg (setFeature features t0 r v) params "produtorium").getD r 0 ≤
      (anomalyScores lg features params "produtorium").getD r 0 := by
  have hk' : ∀ t ∈ params.map Prod.fst, ∃ c, lookupFeature (setFeature features t0 r v) t
      = some c ∧ c.length = featLen (setFeature features t0 r v) := by
    intro t ht
    obtain ⟨c, hc, hcl⟩ := hk t ht
    by_cases h : t = t0
    · subst h
      refine ⟨c.set r (some v), ?_, ?_⟩
      · rw [lookupFeature_setFeature_self, hc]
        rfl
      · rw [List.length_set c, featLen_setFeature]
        exact hcl
    · refine ⟨c, ?_, ?_⟩
      · rw [lookupFeature_setFeature_ne features t0 r v t h]
        exact hc
      · rw [featLen_setFeature]
        exact hcl
  have hA := estimate_anomaly_prod_eq lg features params hne hk
  have hB := estimate_anomaly_prod_eq lg (setFeature features t0 r v) params
    (setFeature_ne_nil hne t0 r v) hk'
  simp only [anomalyScores, hA, hB, featLen_setFeature]
  by_cases hr : r < featLen features
  · rw [getD_map_range _ _ hr, getD_map_range _ _ hr]
    unfold rowScoreSpec
    apply List.sum_le_sum
    intro p hp
    by_cases hpt : p.1 = t0
    · rw [hpt, lookupFeature_setFeature_self, hcol]
      simp only [Option.map_some', Option.some_bind]
      by_cases hrc : r < col.length
      · have hset : (col.set r (some v)).getD r none = some v := by
          simp [List.getD_eq_getElem?_getD, List.getElem?_set_self, hrc]
        rw [hset, hmask]
        show lg (clampProb (p.2 v)) ≤ 0
        obtain ⟨hs0, hs1⟩ := hsf p hp v
        obtain ⟨hc0, hc1⟩ := clampProb_pos_le_one hs0 hs1
        exact hlg _ hc0 hc1
      · have hset : (col.set r (some v)).getD r none = none := by
          apply List.getD_eq_default
          rw [List.length_set col]
          omega
        rw [hset, hmask]
    · rw [lookupFeature_setFeature_ne features t0 r v p.1 hpt]
  · have h1 : ((List.range (featLen features)).map
        (fun q => rowScoreSpec lg (setFeature features t0 r v) params q)).getD r 0 = 0 := by
      apply List.getD_eq_default
      simp only [List.length_map, List.length_range]
      omega
    have h2 : ((List.range (featLen features)).map
        (fun q => rowScoreSpec lg features params q)).getD r 0 = 0 := by
      apply List.getD_eq_default
      simp only [List.length_map, List.length_range]
      omega
    rw [h1, h2]

/-- Witness for claim C7: unmasking row 1 of feature `g` (survival
probability `1/2`, stand-in logarithm `x - 1`) does not increase that row's
score. -/
theorem estimate_anomaly_product_monotone_witness :
    (anomalyScores lgW (setFeature featsW "g" 1 3) paramsW "produtorium").getD 1 0 ≤
      (anomalyScores lgW featsW paramsW "produtorium").getD 1 0 :=
  estimate_anomaly_product_monotone lgW featsW paramsW "g" 1 3 [some 1, none]
    (by simp [featsW])
    (by
      intro t ht
      simp only [paramsW, List.map_cons, List.map_nil, List.mem_singleton] at ht
      subst ht
      exact ⟨[some 1, none], rfl, rfl⟩)
    rfl rfl
    (by
      intro p hp x
      simp only [paramsW, List.mem_singleton] at hp
      subst hp
      norm_num)
    (by
      intro x h0 h1
      simp only [lgW]
      linarith)

/-! ## Threshold optimizer: `estimate_p_optimal` (anomaly_detection.py
lines 121-146) -/

/-- `prob[np.nonzero(binflag)].min()` — the smallest score among label-true
rows; `none` models the numpy error on an empty reduction. -/
def goodScoresMin (prob : List ℚ) (binflag : List Bool) : Option ℚ :=
  ((List.zip prob binflag).filterMap (fun pb => if pb.2 then some pb.1 else none)).min?

/-- Size of the candidate grid `P = -np.arange(0, -p_limit, 0.1)` where
`p_limit = min - 0.1`:  `max 0 ⌈(-p_limit)/0.1⌉ = max 0 ⌈1 - 10*min⌉`.
The ceiling is written directly on the numerator and denominator of the
minimum (Euclidean `Int` division) so that it stays kernel-computable;
`gridLen_eq_ceil` below proves it equal to `Int.ceil`. -/
def gridLen (prob : List ℚ) (binflag : List Bool) : ℕ :=
  match goodScoresMin prob binflag with
  | none => 0
  | some m => (-(-((m.den : ℤ) - 10 * m.num) / (m.den : ℤ))).toNat

lemma gridLen_eq_ceil (prob : List ℚ) (binflag : List Bool) (m : ℚ)
    (h : goodScoresMin prob binflag = some m) :
    gridLen prob binflag = (Int.ceil ((1 : ℚ) - 10 * m)).toNat := by
  rw [gridLen, h]
  have hden0 : (0 : ℚ) < ((m.den : ℕ) : ℚ) := by
    exact_mod_cast m.den_pos
  have hmd : m * ((m.den : ℕ) : ℚ) = ((m.num : ℤ) : ℚ) := Rat.mul_den_eq_num m
  have h1 : (1 : ℚ) - 10 * m = (((m.den : ℤ) - 10 * m.num : ℤ) : ℚ) / ((m.den : ℕ) : ℚ) := by
    rw [eq_div_iff (ne_of_gt hden0)]
    push_cast
    ring_nf
    push_cast at hmd
    linarith [hmd]
  rw [h1]
  have h2 : ((((m.den : ℤ) - 10 * m.num : ℤ) : ℚ) / ((m.den : ℕ) : ℚ))
      = -(((-((m.den : ℤ) - 10 * m.num) : ℤ) : ℚ) / ((m.den : ℕ) : ℚ)) := by
    push_cast
    ring
  rw [h2, Int.ceil_neg, Rat.floor_intCast_div_natCast]

/-- The `k`-th candidate threshold `P[k] = -(k * 0.1)`, in descending order
from 0 (numpy negates an ascending `arange`). -/
def gridP (k : ℕ) : ℚ := -((k : ℚ) / 10)

/-- `err[i] = false_negative[i] + false_positive[i]`: label-true rows whose
score is strictly below the candidate plus label-false rows whose score is
strictly above it. -/
def costAt (prob : List ℚ) (binflag : List Bool) (k : ℕ) : ℕ :=
  (List.zip prob binflag).countP (fun pb => pb.2 && decide (pb.1 < gridP k)) +
    (List.zip prob binflag).countP (fun pb => !pb.2 && decide (pb.1 > gridP k))

/-- Accumulator loop of `np.argmin`: strict improvement only, so the first
occurrence of the minimum is kept. -/
def argminGo (f : ℕ → ℕ) : List ℕ → ℕ → ℕ → ℕ
  | [], bi, _ => bi
  | k :: ks, bi, bv => if f k < bv then argminGo f ks k (f k) else argminGo f ks bi bv

/-- `err.argmin()` over indices `0 .. N-1` (first minimum wins, as numpy). -/
def npArgmin (f : ℕ → ℕ) (N : ℕ) : ℕ := argminGo f (List.range' 1 (N - 1)) 0 (f 0)

/-- Embedding of `estimate_p_optimal(prob, binflag)`: asserts equal shapes,
anchors the grid just below the worst good-row score, and returns
`(P[err.argmin()], err.min()/prob.size)`; numpy raises on an empty reduction
or an empty `argmin`. -/
def estimate_p_optimal (prob : List ℚ) (binflag : List Bool) : Except String (ℚ × ℚ) :=
  if prob.length = binflag.length then
    match goodScoresMin prob binflag with
    | none => .error "ValueError: zero-size array reduction"
    | some _ =>
      if gridLen prob binflag = 0 then
        .error "ValueError: attempt to get argmin of an empty sequence"
      else
        .ok (gridP (npArgmin (costAt prob binflag) (gridLen prob binflag)),
          (costAt prob binflag (npArgmin (costAt prob binflag) (gridLen prob binflag)) : ℚ)
            / (prob.length : ℚ))
  else .error "AssertionError"

lemma argminGo_spec (f : ℕ → ℕ) :
    ∀ (m s bi : ℕ), bi < s → (∀ j, j < s → f bi ≤ f j) → (∀ j, j < bi → f bi < f j) →
      (argminGo f (List.range' s m) bi (f bi) < s + m ∧
       (∀ j, j < s + m → f (argminGo f (List.range' s m) bi (f bi)) ≤ f j) ∧
       (∀ j, j < argminGo f (List.range' s m) bi (f bi) →
         f (argminGo f (List.range' s m) bi (f bi)) < f j)) := by
  intro m
  induction m with
  | zero =>
    intro s bi h1 h2 h3
    simp only [List.range', argminGo]
    exact ⟨by omega, fun j hj => h2 j (by omega), h3⟩
  | succ m ih =>
    intro s bi h1 h2 h3
    rw [List.range'_succ]
    simp only [argminGo]
    by_cases hc : f s < f bi
    · rw [if_pos hc]
      have hres := ih (s + 1) s (by omega)
        (fun j hj => by
          by_cases hjs : j = s
          · subst hjs
            exact le_refl _
          · exact le_of_lt (lt_of_lt_of_le hc (h2 j (by omega))))
        (fun j hj => lt_of_lt_of_le hc (h2 j hj))
      have harith : s + 1 + m = s + (m + 1) := by omega
      rw [harith] at hres
      exact hres
    · rw [if_neg hc]
      have hres := ih (s + 1) bi (by omega)
        (fun j hj => by
          by_cases hjs : j = s
          · subst hjs
            omega
          · exact h2 j (by omega))
        h3
      have harith : s + 1 + m = s + (m + 1) := by omega
      rw [harith] at hres
      exact hres

lemma npArgmin_spec (f : ℕ → ℕ) (N : ℕ) (hN : 0 < N) :
    npArgmin f N < N ∧ (∀ j, j < N → f (npArgmin f N) ≤ f j) ∧
      (∀ j, j < npArgmin f N → f (npArgmin f N) < f j) := by
  have h := argminGo_spec f (N - 1) 1 0 (by omega)
    (fun j hj => by
      have hj0 : j = 0 := by omega
      subst hj0
      exact le_refl _)
    (fun j hj => absurd hj (by omega))
  have harith : 1 + (N - 1) = N := by omega
  rw [npArgmin]
  rw [harith] at h
  exact h

/-- Claim C1 (amended): whenever `estimate_p_optimal` returns a threshold,
that threshold is a grid candidate whose cost (false negatives plus false
positives) is minimal over the whole grid, and among the minimal-cost
candidates it is the first in the generated descending grid order — the
least negative one, not the most negative one the claim states — and the
returned error rate is that minimal cost over the number of scored rows. -/
theorem estimate_p_optimal_grid_min (prob : List ℚ) (binflag : List Bool) (p e : ℚ)
    (hok : estimate_p_optimal prob binflag = .ok (p, e)) :
    npArgmin (costAt prob binflag) (gridLen prob binflag) < gridLen prob binflag ∧
    p = gridP (npArgmin (costAt prob binflag) (gridLen prob binflag)) ∧
    (∀ j, j < gridLen prob binflag →
      costAt prob binflag (npArgmin (costAt prob binflag) (gridLen prob binflag))
        ≤ costAt prob binflag j) ∧
    (∀ j, j < npArgmin (costAt prob binflag) (gridLen prob binflag) →
      costAt prob binflag (npArgmin (costAt prob binflag) (gridLen prob binflag))
        < costAt prob binflag j) ∧
    e = (costAt prob binflag (npArgmin (costAt prob binflag) (gridLen prob binflag)) : ℚ)
          / (prob.length : ℚ) := by
  by_cases hlen : prob.length = binflag.length
  · rw [estimate_p_optimal, if_pos hlen] at hok
    cases hgm : goodScoresMin prob binflag with
    | none =>
      rw [hgm] at hok
      simp at hok
    | some m =>
      rw [hgm] at hok
      by_cases hN : gridLen prob binflag = 0
      · rw [if_pos hN] at hok
        simp at hok
      · rw [if_neg hN] at hok
        have hinj := Except.ok.inj hok
        obtain ⟨h1, h2, h3⟩ := npArgmin_spec (costAt prob binflag) (gridLen prob binflag)
          (by omega)
        refine ⟨h1, ?_, h2, h3, ?_⟩
        · exact (congrArg Prod.fst hinj).symm
        · exact (congrArg Prod.snd hinj).symm
  · rw [estimate_p_optimal, if_neg hlen] at hok
    simp at hok

-- concrete evaluation facts
example : goodScoresMin [-1, 0] [true, false] = some (-1) := rfl

example : gridLen [-1, 0] [true, false] = 11 := rfl

example (j : ℕ) (hj : j < 11) : 1 ≤ costAt [-1, 0] [true, false] j := by
  interval_cases j <;>
    norm_num [costAt, gridP, List.zip, List.zipWith, List.countP, List.countP.go]

example : costAt [-1, 0] [true, false] 0 = 1 := by
  norm_num [costAt, gridP, List.zip, List.zipWith, List.countP, List.countP.go]

example : costAt [-1, 0] [true, false] 10 = 1 := by
  norm_num [costAt, gridP, List.zip, List.zipWith, List.countP, List.countP.go]

lemma c1CostLb : ∀ j, j < 11 → 1 ≤ costAt [-1, 0] [true, false] j := by
  intro j hj
  interval_cases j <;>
    norm_num [costAt, gridP, List.zip, List.zipWith, List.countP, List.countP.go]

lemma c1Cost0 : costAt [-1, 0] [true, false] 0 = 1 := by
  norm_num [costAt, gridP, List.zip, List.zipWith, List.countP, List.countP.go]

lemma c1Cost10 : costAt [-1, 0] [true, false] 10 = 1 := by
  norm_num [costAt, gridP, List.zip, List.zipWith, List.countP, List.countP.go]

lemma c1ArgminZero : npArgmin (costAt [-1, 0] [true, false]) 11 = 0 := by
  obtain ⟨h1, h2, h3⟩ := npArgmin_spec (costAt [-1, 0] [true, false]) 11 (by omega)
  by_contra hne
  have hlt := h3 0 (by omega)
  rw [c1Cost0] at hlt
  have := c1CostLb _ h1
  omega

lemma c1Eval : estimate_p_optimal [-1, 0] [true, false] = .ok (gridP 0, 1 / 2) := by
  have heq : estimate_p_optimal [-1, 0] [true, false]
      = .ok (gridP (npArgmin (costAt [-1, 0] [true, false]) (gridLen [-1, 0] [true, false])),
        (costAt [-1, 0] [true, false]
            (npArgmin (costAt [-1, 0] [true, false]) (gridLen [-1, 0] [true, false])) : ℚ)
          / (([-1, 0] : List ℚ).length : ℚ)) := rfl
  have hgl : gridLen [-1, 0] [true, false] = 11 := rfl
  rw [hgl, c1ArgminZero, c1Cost0] at heq
  rw [heq]
  have h12 : ((1 : ℕ) : ℚ) / (([-1, 0] : List ℚ).length : ℚ) = 1 / 2 := by
    norm_num
  rw [h12]

/-- Counterexample for claim C1 as stated: on scores `[-1, 0]` with labels
`[true, false]` the grid has 11 candidates; the most negative candidate
`P[10] = -1` attains the minimal cost 1, but the optimizer returns the least
negative minimal-cost candidate `P[0] = 0` (`argmin` takes the first
minimum of the descending grid), refuting the most-negative tie-break. -/
theorem estimate_p_optimal_tiebreak_cex :
    estimate_p_optimal [-1, 0] [true, false] = .ok (gridP 0, 1 / 2) ∧
    gridLen [-1, 0] [true, false] = 11 ∧
    costAt [-1, 0] [true, false] 10 = 1 ∧
    (∀ j, j < 11 → 1 ≤ costAt [-1, 0] [true, false] j) ∧
    gridP 10 < gridP 0 :=
  ⟨c1Eval, rfl, c1Cost10, c1CostLb, by norm_num [gridP]⟩

/-- Witness for claim C1 (amended) at scores `[-1, 0]`, labels
`[true, false]`. -/
theorem estimate_p_optimal_grid_min_witness :
    npArgmin (costAt [-1, 0] [true, false]) (gridLen [-1, 0] [true, false])
      < gridLen [-1, 0] [true, false] ∧
    gridP 0 = gridP (npArgmin (costAt [-1, 0] [true, false])
      (gridLen [-1, 0] [true, false])) ∧
    (∀ j, j < gridLen [-1, 0] [true, false] →
      costAt [-1, 0] [true, false]
          (npArgmin (costAt [-1, 0] [true, false]) (gridLen [-1, 0] [true, false]))
        ≤ costAt [-1, 0] [true, false] j) ∧
    (∀ j, j < npArgmin (costAt [-1, 0] [true, false]) (gridLen [-1, 0] [true, false]) →
      costAt [-1, 0] [true, false]
          (npArgmin (costAt [-1, 0] [true, false]) (gridLen [-1, 0] [true, false]))
        < costAt [-1, 0] [true, false] j) ∧
    (1 : ℚ) / 2 = (costAt [-1, 0] [true, false]
          (npArgmin (costAt [-1, 0] [true, false]) (gridLen [-1, 0] [true, false])) : ℚ)
        / (([-1, 0] : List ℚ).length : ℚ) :=
  estimate_p_optimal_grid_min [-1, 0] [true, false] (gridP 0) (1 / 2) c1Eval

/-! ## Human refinement loop: `human_calibrate_mistakes`
(anomaly_detection.py lines 370-505)

Only the error-log bookkeeping is embedded.  Everything the loop body
recomputes through external collaborators (`ProfilesQCPandasCollection`,
`HumanQC`, SciPy fitting) and the re-run calibration pipeline is abstracted
into one record per iteration carrying the recomputed mistake mask, the
recomputed err-partition mask and the recomputed optimal threshold.  The
load-bearing source fact is which program variables feed the
`error_log.append` on lines 492-494: the recomputation of `n_err` and
`err_ratio` (lines 486-487) is commented out in the source, so the loop
never updates them after line 416. -/

/-- One error-log entry `{err, err_ratio, p_optimal}`. -/
structure ErrorLogEntry where
  err : ℚ
  errRate : ℚ
  p_optimal : ℚ
deriving Repr, DecidableEq

/-- What one loop iteration recomputes (lines 476-484): the new mistake
mask, the new err-partition mask and the new optimal threshold. -/
structure IterRecompute where
  mistake : List Bool
  errMask : List Bool
  p_optimal : ℚ
deriving Repr

/-- `float(np.nonzero(mistake[indices['err']])[0].shape[0])` — the error
count that the commented-out line 486 would recompute for an iteration. -/
def nErrOf (mistake errMask : List Bool) : ℕ :=
  (List.zipWith (fun a b => a && b) mistake errMask).countP (fun b => b)

/-- The entry appended at the end of one iteration (lines 492-494): its
threshold is the iteration's recomputed `p_optimal`, but its `err` and
`err_ratio` are the pre-loop values, which stay loop-invariant because
their recomputation is commented out in the source. -/
def humanIterEntry (n_err errRate : ℚ) (it : IterRecompute) : ErrorLogEntry :=
  { err := n_err, errRate := errRate, p_optimal := it.p_optimal }

/-- The error log produced by `human_calibrate_mistakes`: the pre-loop
entry (lines 425-426) followed by one appended entry per iteration. -/
def human_calibrate_error_log (n_err errRate p0 : ℚ) (iters : List IterRecompute) :
    List ErrorLogEntry :=
  { err := n_err, errRate := errRate, p_optimal := p0 } ::
    iters.map (humanIterEntry n_err errRate)

/-- Claim C3 (code bug): the error-log entry appended at the end of an
iteration does not record that iteration's recomputed error count and error
rate — lines 486-487 that would recompute `n_err` and `err_ratio` are
commented out, so the append on lines 492-494 reuses the pre-loop values
and only `p_optimal` is current.  Failing run: initial error count 2 and
rate 1/5; the iteration's recomputed mistake mask restricted to its err
partition has count 1, yet the appended snapshot still says 2. -/
theorem human_error_log_stale_entries :
    human_calibrate_error_log 2 (1 / 5) (-1) [⟨[true], [true], -2⟩]
      = [⟨2, 1 / 5, -1⟩, ⟨2, 1 / 5, -2⟩] ∧
    nErrOf [true] [true] = 1 ∧
    (2 : ℚ) ≠ ((nErrOf [true] [true] : ℕ) : ℚ) :=
  ⟨rfl, rfl, by
    have h : nErrOf [true] [true] = 1 := rfl
    rw [h]
    norm_num⟩

/-- Witness for claim C10 at concrete (empty) features with empty params. -/
theorem estimate_anomaly_empty_features_error_witness :
    estimate_anomaly (fun x => x) [] [] "produtorium" = .error "IndexError" :=
  estimate_anomaly_empty_features_error (fun x => x) [] "produtorium"
